import Mathlib

/-!
Verification of the chiptatop train-ticket bot (Go) against its
natural-language specification.  The Go sources are shallowly embedded:
Go byte strings become lists of characters (the data handled by the
program is ASCII, where Go byte indexing and character indexing agree),
Go `int` becomes `Int`, fallible operations return `Option`/`Except`,
and the HTTP transport is a parameter (an oracle giving the response of
each successive request).
-/

namespace Chiptatop

/-- Go byte strings, modelled as lists of characters. -/
abbrev Str := List Char

/-! ## String utilities (Go `strings` package, on the ASCII fragment) -/

/-- Whether `pat` is a leading segment of `l` (Go `strings.HasPrefix`). -/
def startsWithList : Str → Str → Bool
  | [], _ => true
  | _ :: _, [] => false
  | a :: asx, b :: bs => a = b && startsWithList asx bs

/-- Whether `pat` occurs contiguously inside `l` (Go `strings.Contains`). -/
def containsSubstr (pat : Str) : Str → Bool
  | [] => startsWithList pat []
  | c :: cs => startsWithList pat (c :: cs) || containsSubstr pat cs

/-- ASCII whitespace, as recognised by Go `unicode.IsSpace`. -/
def isSpaceChar (c : Char) : Bool :=
  c = ' ' || c = '\t' || c = '\n' || c = '\r' || c = '\x0b' || c = '\x0c'

/-- Go `strings.TrimSpace` on ASCII data. -/
def trimSpace (l : Str) : Str :=
  ((l.dropWhile isSpaceChar).reverse.dropWhile isSpaceChar).reverse

/-- Go `strings.ToLower`, character by character. -/
def lowerStr (l : Str) : Str := l.map Char.toLower

/-! ## Train data model (`internal/services/train/stations.go`, type section) -/

/-- Pricing and availability for one service class (`Tariff` in Go). -/
structure Tariff where
  classServiceType : Str
  freeSeats : Int
  tariff : Int
deriving DecidableEq

/-- A train car with available seats (`Car` in Go). -/
structure Car where
  type : Str
  freeSeats : Int
  tariffs : List Tariff
deriving DecidableEq

/-- Full route information (`RouteInfo` in Go). -/
structure RouteInfo where
  depStationName : Str
  arvStationName : Str
deriving DecidableEq

/-- The searched segment (`SubRoute` in Go). -/
structure SubRoute where
  depStationName : Str
  depStationCode : Str
  arvStationName : Str
  arvStationCode : Str
deriving DecidableEq

/-- A train record as returned by the provider (`Train` in Go). -/
structure Train where
  type : Str
  number : Str
  departureDate : Str
  arrivalDate : Str
  timeOnWay : Str
  brand : Str
  originRoute : RouteInfo
  subRoute : SubRoute
  cars : List Car
  trainId : Option Str
  comment : Option Str
deriving DecidableEq

/-- Builds a train record whose display-only fields are blank; used for
concrete test inputs. -/
def mkTrain (dep arv : Str) (cars : List Car) : Train :=
  ⟨[], [], dep, arv, [], [], ⟨[], []⟩, ⟨[], [], [], []⟩, cars, none, none⟩

/-- Go `Train.GetDepartureTime`: the slice `[11:16]` of the combined
date-time string when it has at least 16 bytes, else the string itself. -/
def Train.getDepartureTime (t : Train) : Str :=
  if 16 ≤ t.departureDate.length then (t.departureDate.drop 11).take 5
  else t.departureDate

/-- Go `Train.GetArrivalTime`: the slice `[11:16]` of the arrival
date-time string when it has at least 16 bytes, else the string itself. -/
def Train.getArrivalTime (t : Train) : Str :=
  if 16 ≤ t.arrivalDate.length then (t.arrivalDate.drop 11).take 5
  else t.arrivalDate

/-- Go `Train.GetDate`: the first 10 bytes of the combined date-time
string when it has at least 10 bytes, else the string itself. -/
def Train.getDate (t : Train) : Str :=
  if 10 ≤ t.departureDate.length then t.departureDate.take 10
  else t.departureDate

/-- Go `Train.HasAvailableSeats`: some tariff of some car has free seats. -/
def Train.hasAvailableSeats (t : Train) : Bool :=
  t.cars.any fun car => car.tariffs.any fun tr => decide (0 < tr.freeSeats)

/-- Go `Train.GetTotalFreeSeats`: sum of the car-level free-seat counts. -/
def Train.getTotalFreeSeats (t : Train) : Int :=
  t.cars.foldl (fun total car => total + car.freeSeats) 0

/-- One step of the Go `GetMinPrice` accumulator: a tariff with free
seats replaces the running minimum when the minimum is still the zero
sentinel or the tariff price is strictly smaller. -/
def minStep (m : Int) (tr : Tariff) : Int :=
  if 0 < tr.freeSeats ∧ (m = 0 ∨ tr.tariff < m) then tr.tariff else m

/-- Go `Train.GetMinPrice`: fold `minStep` over all tariffs of all cars,
starting from the zero sentinel. -/
def Train.getMinPrice (t : Train) : Int :=
  t.cars.foldl (fun m car => car.tariffs.foldl minStep m) 0

/-- Prices of the tariffs of a car list that have free seats, in order. -/
def freePricesOf (ts : List Tariff) : List Int :=
  (ts.filter fun tr => decide (0 < tr.freeSeats)).map Tariff.tariff

/-- Prices with free seats of one car. -/
def carFreePrices (c : Car) : List Int := freePricesOf c.tariffs

/-- Prices of all tariffs with free seats across all cars, in order. -/
def Train.freePrices (t : Train) : List Int := (t.cars.map carFreePrices).flatten

/-- Minimum of a list of integers, `0` when the list is empty (the
spec's reading of "minimum tariff price, zero if none"). -/
def minOrZero : List Int → Int
  | [] => 0
  | p :: ps => ps.foldl min p

/-! ## Station directory (`internal/services/train/stations.go`) -/

/-- A railway station with its details (`StationInfo` in Go).  The
optional GPS-coordinate field is elided: the static table never sets it
and no code reads it. -/
structure StationInfo where
  code : Str
  name : Str
  nameUz : Str
  nameEn : Str
  aliases : List Str
  region : Str
  isActive : Bool
  isMajor : Bool
deriving DecidableEq

/-- Go `GetAllStations`: the static table of the 16 known stations. -/
def getAllStations : List StationInfo :=
  [ ⟨"2900680".data, "Andijon".data, "Andijon".data, "Andijan".data,
      ["andijan".data, "andizhan".data], "Andijon".data, true, true⟩,
    ⟨"2900800".data, "Buxoro".data, "Buxoro".data, "Bukhara".data,
      ["bukhara".data, "bokhara".data], "Buxoro".data, true, true⟩,
    ⟨"2900850".data, "Guliston".data, "Guliston".data, "Gulistan".data,
      ["gulistan".data], "Sirdaryo".data, true, false⟩,
    ⟨"2900720".data, "Jizzax".data, "Jizzax".data, "Jizzakh".data,
      ["jizzakh".data, "djizak".data], "Jizzax".data, true, true⟩,
    ⟨"2900920".data, "Margilon".data, "Margilon".data, "Margilan".data,
      ["margilan".data, "marghilan".data], "Farg\x27ona".data, true, true⟩,
    ⟨"2900940".data, "Namangan".data, "Namangan".data, "Namangan".data,
      [], "Namangan".data, true, true⟩,
    ⟨"2900930".data, "Navoiy".data, "Navoiy".data, "Navoi".data,
      ["navoi".data, "navoiy".data], "Navoiy".data, true, true⟩,
    ⟨"2900970".data, "Nukus".data, "Nukus".data, "Nukus".data,
      [], "Qoraqalpog\x27iston".data, true, true⟩,
    ⟨"2900693".data, "Pop".data, "Pop".data, "Pop".data,
      [], "Namangan".data, true, false⟩,
    ⟨"2900750".data, "Qarshi".data, "Qarshi".data, "Karshi".data,
      ["karshi".data, "qarshi".data], "Qashqadaryo".data, true, true⟩,
    ⟨"2900880".data, "Qo\x27qon".data, "Qo\x27qon".data, "Kokand".data,
      ["kokand".data, "qoqon".data, "kokhand".data], "Farg\x27ona".data, true, true⟩,
    ⟨"2900700".data, "Samarqand".data, "Samarqand".data, "Samarkand".data,
      ["samarkand".data, "samarqand".data], "Samarqand".data, true, true⟩,
    ⟨"2900255".data, "Termiz".data, "Termiz".data, "Termez".data,
      ["termez".data, "termiz".data], "Surxondaryo".data, true, true⟩,
    ⟨"2900000".data, "Toshkent".data, "Toshkent".data, "Tashkent".data,
      ["tashkent".data, "toshkent".data], "Toshkent".data, true, true⟩,
    ⟨"2900790".data, "Urgench".data, "Urganch".data, "Urgench".data,
      ["urganch".data, "urgench".data], "Xorazm".data, true, true⟩,
    ⟨"2900172".data, "Xiva".data, "Xiva".data, "Khiva".data,
      ["khiva".data, "xiva".data], "Xorazm".data, true, true⟩ ]

/-- Go `GetStationByName`: first station whose main names or aliases
match the given name case-insensitively. -/
def getStationByName (name : Str) : Option StationInfo :=
  let lowerName := lowerStr name
  getAllStations.find? fun station =>
    lowerStr station.name = lowerName || lowerStr station.nameUz = lowerName ||
    lowerStr station.nameEn = lowerName ||
    station.aliases.any fun al => lowerStr al = lowerName

/-- Whether the Go regular expression `^[0-9]+` matches somewhere in the
token, i.e. whether its first character is a digit. -/
def looksLikeCode : Str → Bool
  | [] => false
  | c :: _ => c.isDigit

/-- Modelled from the spec: `Service.GetStationCode` (the service layer
source file is absent from the packaged sources; only its callers and
the behavioural table in `test_response.go` are present).  Per spec
§4.1: an empty token or one matching `^[0-9]+` is returned unchanged;
otherwise the token is trimmed and matched case-insensitively against
the static alias table via `getStationByName`, and an unmatched token
is returned unchanged. -/
def getStationCode (token : Str) : Str :=
  if token = [] then token
  else if looksLikeCode token then token
  else
    match getStationByName (trimSpace token) with
    | some station => station.code
    | none => token

/-! ## Ticket client (`internal/services/train/client.go`)

The HTTP transport is a parameter: `posts n` is the result of the
`n`-th POST to the trains-list endpoint (`none` models a transport
error), and `refresh` is the result of `RefreshCSRFToken` (`none`
models its failure).  A response carries its status, raw body, and the
result of JSON-decoding the body into the raw response shape. -/

/-- An in-band error object (`APIError` in Go). -/
structure APIError where
  code : Str
  message : Str
  details : Str
deriving DecidableEq

/-- Trains of one direction (`DirectionTrains` in Go). -/
structure DirectionTrains where
  trains : List Train
deriving DecidableEq

/-- Forward and return trains (`DirectionsResponse` in Go). -/
structure DirectionsResponse where
  forward : Option DirectionTrains
  return' : Option DirectionTrains
deriving DecidableEq

/-- Main response data (`TrainSearchData` in Go). -/
structure TrainSearchData where
  directions : DirectionsResponse
deriving DecidableEq

/-- Raw search response (`SearchTrainsResponse` in Go): nullable `data`
and nullable `error` fields. -/
structure SearchTrainsResponse where
  data : Option TrainSearchData
  error : Option APIError
deriving DecidableEq

/-- An HTTP response as the client observes it: status code, raw body
bytes, and the result of JSON-decoding the body (`none` = malformed). -/
structure HttpResp where
  status : Nat
  body : Str
  decoded : Option SearchTrainsResponse
deriving DecidableEq

/-- The client's mutable credential headers (`X-XSRF-TOKEN`, `Cookie`). -/
structure ClientHeaders where
  xsrfToken : Option Str
  cookie : Option Str
deriving DecidableEq

/-- Result of `Client.SearchTrains`. -/
inductive SearchOutcome where
  | success (resp : SearchTrainsResponse)
  | netFailure
  | refreshFailed
  | statusFailure (status : Nat) (body : Str)
  | decodeFailure
deriving DecidableEq

/-- The cookie-segment key the client's regular expression
`XSRF-TOKEN=[^;]*` looks for (11 characters). -/
def xsrfKey : Str := "XSRF-TOKEN=".data

/-- Go: `strings.Contains(body, "CSRF") || strings.Contains(body,
"Invalid CSRF Token")`. -/
def hasCsrfMarker (body : Str) : Bool :=
  containsSubstr "CSRF".data body || containsSubstr "Invalid CSRF Token".data body

/-- Go `re.ReplaceAllString(cookies, "XSRF-TOKEN="+newToken)` for the
pattern `XSRF-TOKEN=[^;]*`: every occurrence of the key followed by a
maximal semicolon-free run is replaced by the key and the new token. -/
def replXsrf (tok : Str) (l : Str) : Str :=
  match l with
  | [] => []
  | c :: cs =>
    if startsWithList xsrfKey (c :: cs) then
      xsrfKey ++ tok ++ replXsrf tok (((c :: cs).drop 11).dropWhile fun d => d != ';')
    else c :: replXsrf tok cs
termination_by l.length
decreasing_by
  · have h1 := (List.dropWhile_sublist (l := (c :: cs).drop 11)
      (p := fun d => d != ';')).length_le
    have h2 : ((c :: cs).drop 11).length = (c :: cs).length - 11 :=
      List.length_drop 11 (c :: cs)
    simp only [List.length_cons] at h2 ⊢
    omega
  · simp

/-- The header update performed by `Client.SearchTrains` after a token
refresh: store the new token and patch it into the cookie string —
replacing the existing `XSRF-TOKEN=...` segment when one is present,
else prepending one (or creating a fresh cookie when none exists). -/
def patchCookie (tok : Str) (h : ClientHeaders) : ClientHeaders :=
  { xsrfToken := some tok
    cookie :=
      match h.cookie with
      | some c =>
        some (if containsSubstr xsrfKey c then replXsrf tok c
              else xsrfKey ++ tok ++ ';' :: c)
      | none => some (xsrfKey ++ tok) }

/-- The tail of `Client.SearchTrains`: non-200 statuses fail with the
status and body; a 200 body is JSON-decoded and returned as-is. -/
def finishResponse (resp : HttpResp) : SearchOutcome :=
  if resp.status ≠ 200 then .statusFailure resp.status resp.body
  else
    match resp.decoded with
    | some v => .success v
    | none => .decodeFailure

/-- Go `Client.SearchTrains`: one POST; on a 403 whose body carries a
CSRF marker, one token refresh, one header patch and one retried POST;
the second response (or the first, when no refresh was triggered) is
then finished by the common status/decode tail.  Besides the outcome
and the updated headers, the model returns the number of POSTs issued
and the number of refresh calls made. -/
def clientSearchTrains (posts : Nat → Option HttpResp) (refresh : Option Str)
    (h : ClientHeaders) : SearchOutcome × ClientHeaders × Nat × Nat :=
  match posts 0 with
  | none => (.netFailure, h, 1, 0)
  | some resp =>
    if resp.status = 403 ∧ hasCsrfMarker resp.body = true then
      match refresh with
      | none => (.refreshFailed, h, 1, 1)
      | some tok =>
        let h2 := patchCookie tok h
        match posts 1 with
        | none => (.netFailure, h2, 2, 1)
        | some resp2 => (finishResponse resp2, h2, 2, 1)
    else (finishResponse resp, h, 1, 0)

/-! ## Search orchestrator retry loop (`internal/bot/bot.go`)

`Bot.searchTrainsWithRetry` / `Bot.findAvailableTrainsWithRetry` share
one loop shape; it is embedded once, generically in the result type.
`call n` is the `n`-th attempt (errors carry their Go error text for
the substring classification), `cancelAt n` models `ctx.Err() != nil`
observed after attempt `n` fails, and `cancelInWait n` models the
context firing during the backoff sleep that follows attempt `n`. -/

/-- Go error classification by substring: `"403"` or `"CSRF"`. -/
def isAuthErrText (e : Str) : Bool :=
  containsSubstr "403".data e || containsSubstr "CSRF".data e

/-- Final result of the retry loop. -/
inductive RetryOutcome (α : Type) where
  | ok (v : α)
  | exhausted (lastErr : Str)
  | cancelled
deriving DecidableEq

/-- The retry loop body, from attempt number `attempt` with `remaining`
further attempts allowed.  Returns the outcome, the number of the last
attempt performed, and the list of backoff waits (in seconds) actually
slept. -/
def retryGo (call : Nat → Except Str α) (cancelAt cancelInWait : Nat → Bool) :
    Nat → Nat → List Nat → RetryOutcome α × Nat × List Nat
  | attempt, remaining, waits =>
    match call attempt with
    | .ok v => (.ok v, attempt, waits)
    | .error err =>
      if isAuthErrText err then (.exhausted err, attempt, waits)
      else if cancelAt attempt then (.exhausted err, attempt, waits)
      else
        match remaining with
        | 0 => (.exhausted err, attempt, waits)
        | r + 1 =>
          if cancelInWait attempt then (.cancelled, attempt, waits)
          else retryGo call cancelAt cancelInWait (attempt + 1) r (waits ++ [attempt])

/-- Go `Bot.searchTrainsWithRetry`: `maxRetries = 3`, so the loop
starts at attempt 1 with 2 further attempts allowed. -/
def searchTrainsWithRetry (call : Nat → Except Str α)
    (cancelAt cancelInWait : Nat → Bool) : RetryOutcome α × Nat × List Nat :=
  retryGo call cancelAt cancelInWait 1 2 []

/-! ## Conversation state machine (`internal/bot/bot.go`)

Per-chat state; travel dates are modelled as integers counting days, so
that `time.Now().Truncate(24*time.Hour)` is the parameter `today` and
`selectedDate.Before(...)` is `<`. -/

/-- Go `UserState`. -/
structure UserState where
  currentStep : Str
  fromStation : Str
  toStation : Str
  searchDate : Int
deriving DecidableEq

/-- Step tags used by the Go handlers. -/
def stepSelectFrom : Str := "select_from_station".data

/-- Step tag for destination selection. -/
def stepSelectTo : Str := "select_to_station".data

/-- Step tag for date selection. -/
def stepSelectDate : Str := "select_date".data

/-- Go `resetUserState` / a fresh state: zero values everywhere. -/
def newUserState : UserState := ⟨[], [], [], 0⟩

/-- A search the bot fires (`handleSearchRequest` arguments). -/
structure SearchReq where
  fromStation : Str
  toStation : Str
  date : Int
deriving DecidableEq

/-- Go `Bot.handleStationSelection`.  Returns the chat's state after
the handler runs and the search request fired, if any.
`searchFindsTrains` records the outcome of a fired search: inside
`handleSearchRequest` the empty-result branch already resets the state,
and `handleStationSelection` then resets unconditionally after the
search returns, so the final state is `newUserState` for either
outcome; the parameter is kept so the theorems can quantify over it. -/
def handleStationSelection (st : UserState) (text : Str)
    (_searchFindsTrains : Bool) : UserState × Option SearchReq :=
  if st.currentStep = stepSelectFrom then
    let stationName := trimSpace text
    if stationName = [] then (st, none)
    else ({ st with fromStation := stationName, currentStep := stepSelectTo }, none)
  else if st.currentStep = stepSelectTo then
    let stationName := trimSpace text
    if stationName = [] then (st, none)
    else
      let st1 := { st with toStation := stationName }
      if st1.fromStation = st1.toStation then (st1, none)
      else (newUserState, some ⟨st1.fromStation, st1.toStation, st1.searchDate⟩)
  else (newUserState, none)

/-- Go `Bot.handleSearchTrainsButton`: reset the state, then enter
origin selection with today's date stored.  The handler never reads the
previous state, so this holds from any state. -/
def handleSearchTrainsButton (today : Int) : UserState :=
  { newUserState with currentStep := stepSelectFrom, searchDate := today }

/-- Go `Bot.handleSearchByDateButton`: reset, enter date selection,
default the date to tomorrow. -/
def handleSearchByDateButton (today : Int) : UserState :=
  { newUserState with currentStep := stepSelectDate, searchDate := today + 1 }

/-- Go `Bot.handleCalendarCallback`, `date_Y_M_D` branch: a selected
date strictly before today only re-prompts (the returned flag), leaving
the state untouched; otherwise the date is stored and the step becomes
origin selection. -/
def handleDateSelection (st : UserState) (selected today : Int) :
    UserState × Bool :=
  if selected < today then (st, true)
  else ({ st with searchDate := selected, currentStep := stepSelectFrom }, false)

/-! ## Long-message splitting (`internal/bot/bot.go`) -/

/-- Go `strings.Split(text, "\n")`. -/
def splitOnNl : Str → List Str
  | [] => [[]]
  | c :: cs =>
    if c = '\n' then [] :: splitOnNl cs
    else
      match splitOnNl cs with
      | [] => [[c]]
      | g :: gs => (c :: g) :: gs

/-- Joins lines with a newline between consecutive ones (the inverse of
`splitOnNl`; also how the split parts are reassembled for comparison
with the original text). -/
def joinNl : List Str → Str
  | [] => []
  | [g] => g
  | g :: g2 :: gs => g ++ '\n' :: joinNl (g2 :: gs)

/-- The loop of Go `Bot.splitMessage` over the lines: when the current
part cannot take the next line (plus a separating newline) it is
flushed if non-empty; the line is then appended to the current part,
preceded by a newline when the part is non-empty. -/
def splitLoop (maxLength : Nat) : List Str → List Str → Str → List Str
  | [], parts, current => if 0 < current.length then parts ++ [current] else parts
  | line :: rest, parts, current =>
    let flushed :=
      if maxLength < current.length + line.length + 1 then
        (if 0 < current.length then parts ++ [current] else parts, ([] : Str))
      else (parts, current)
    let cur2 := if 0 < flushed.2.length then flushed.2 ++ '\n' :: line
                else flushed.2 ++ line
    splitLoop maxLength rest flushed.1 cur2

/-- Go `Bot.splitMessage`: short texts are returned whole; longer ones
are split line-wise by `splitLoop`.  `Bot.sendLongMessage` calls this
with the platform cap `maxLength = 4096`. -/
def splitMessage (text : Str) (maxLength : Nat) : List Str :=
  if text.length ≤ maxLength then [text]
  else splitLoop maxLength (splitOnNl text) [] []

/-! ## Lemmas about the minimum-price fold -/

lemma foldl_min_pos : ∀ (ps : List Int) (m : Int), 0 < m → (∀ p ∈ ps, 0 < p) →
    0 < ps.foldl min m := by
  intro ps
  induction ps with
  | nil => intro m hm _; simpa using hm
  | cons p ps ih =>
    intro m hm hp
    simp only [List.foldl_cons]
    exact ih (min m p) (lt_min hm (hp p (List.mem_cons_self p ps)))
      fun q hq => hp q (List.mem_cons_of_mem p hq)

lemma freePricesOf_pos (ts : List Tariff)
    (h : ∀ tr ∈ ts, 0 < tr.freeSeats → 0 < tr.tariff) :
    ∀ p ∈ freePricesOf ts, 0 < p := by
  intro p hp
  simp only [freePricesOf, List.mem_map, List.mem_filter,
    decide_eq_true_eq] at hp
  obtain ⟨tr, ⟨htr, hfree⟩, rfl⟩ := hp
  exact h tr htr hfree

lemma minOrZero_cons (p : Int) (ps : List Int) :
    minOrZero (p :: ps) = ps.foldl min p := rfl

lemma tariffFold_spec (ts : List Tariff) : ∀ m : Int, 0 ≤ m →
    (∀ tr ∈ ts, 0 < tr.freeSeats → 0 < tr.tariff) →
    ts.foldl minStep m =
      if m = 0 then minOrZero (freePricesOf ts)
      else (freePricesOf ts).foldl min m := by
  induction ts with
  | nil =>
    intro m _ _
    simp only [List.foldl_nil, freePricesOf, List.filter_nil, List.map_nil]
    split
    · next h => simpa [minOrZero] using h
    · simp
  | cons tr ts ih =>
    intro m hm hp
    have hfp : freePricesOf (tr :: ts) =
        if 0 < tr.freeSeats then tr.tariff :: freePricesOf ts
        else freePricesOf ts := by
      by_cases hfree : 0 < tr.freeSeats <;>
        simp [freePricesOf, List.filter_cons, hfree]
    have hptail : ∀ t2 ∈ ts, 0 < t2.freeSeats → 0 < t2.tariff :=
      fun t2 ht2 => hp t2 (List.mem_cons_of_mem tr ht2)
    rw [List.foldl_cons, hfp]
    by_cases hfree : 0 < tr.freeSeats
    · have hpos : 0 < tr.tariff := hp tr (List.mem_cons_self tr ts) hfree
      rw [if_pos hfree]
      by_cases hm0 : m = 0
      · have hstep : minStep m tr = tr.tariff := by
          simp [minStep, hfree, hm0]
        rw [hstep, if_pos hm0, ih tr.tariff hpos.le hptail, if_neg (by omega),
          minOrZero_cons]
      · by_cases hlt : tr.tariff < m
        · have hstep : minStep m tr = tr.tariff := by
            simp [minStep, hfree, hlt]
          rw [hstep, if_neg hm0, ih tr.tariff hpos.le hptail, if_neg (by omega),
            List.foldl_cons, min_eq_right hlt.le]
        · have hstep : minStep m tr = m := by
            simp [minStep, hfree, hm0, hlt]
          rw [hstep, if_neg hm0, ih m hm hptail, if_neg hm0,
            List.foldl_cons, min_eq_left (le_of_not_lt hlt)]
    · have hstep : minStep m tr = m := by simp [minStep, hfree]
      rw [hstep, if_neg hfree]
      exact ih m hm hptail

lemma carsFold_spec (cars : List Car) : ∀ m : Int, 0 ≤ m →
    (∀ c ∈ cars, ∀ tr ∈ c.tariffs, 0 < tr.freeSeats → 0 < tr.tariff) →
    cars.foldl (fun acc car => car.tariffs.foldl minStep acc) m =
      if m = 0 then minOrZero ((cars.map carFreePrices).flatten)
      else ((cars.map carFreePrices).flatten).foldl min m := by
  induction cars with
  | nil =>
    intro m _ _
    simp only [List.foldl_nil, List.map_nil, List.flatten_nil]
    split
    · next h => simpa [minOrZero] using h
    · simp
  | cons c cs ih =>
    intro m hm hp
    have hchead : ∀ tr ∈ c.tariffs, 0 < tr.freeSeats → 0 < tr.tariff :=
      hp c (List.mem_cons_self c cs)
    have hptail : ∀ c2 ∈ cs, ∀ tr ∈ c2.tariffs, 0 < tr.freeSeats → 0 < tr.tariff :=
      fun c2 hc2 => hp c2 (List.mem_cons_of_mem c hc2)
    have hfpos : ∀ p ∈ freePricesOf c.tariffs, 0 < p :=
      freePricesOf_pos c.tariffs hchead
    simp only [List.foldl_cons, List.map_cons, List.flatten_cons, carFreePrices]
    rw [tariffFold_spec c.tariffs m hm hchead]
    by_cases hm0 : m = 0
    · rw [if_pos hm0, if_pos hm0]
      cases hfp : freePricesOf c.tariffs with
      | nil =>
        rw [hfp] at hfpos
        have h0 : minOrZero ([] : List Int) = 0 := rfl
        rw [h0, List.nil_append, ih 0 le_rfl hptail, if_pos rfl]
      | cons p ps =>
        rw [hfp] at hfpos
        have hppos : 0 < p := hfpos p (List.mem_cons_self p ps)
        have hpspos : ∀ q ∈ ps, 0 < q :=
          fun q hq => hfpos q (List.mem_cons_of_mem p hq)
        have ht1 : 0 < ps.foldl min p := foldl_min_pos ps p hppos hpspos
        rw [minOrZero_cons, ih (ps.foldl min p) ht1.le hptail, if_neg (by omega),
          List.cons_append, minOrZero_cons, List.foldl_append]
    · rw [if_neg hm0, if_neg hm0]
      have hmpos : 0 < m := lt_of_le_of_ne hm (Ne.symm hm0)
      have ht1 : 0 < (freePricesOf c.tariffs).foldl min m :=
        foldl_min_pos (freePricesOf c.tariffs) m hmpos hfpos
      rw [ih ((freePricesOf c.tariffs).foldl min m) ht1.le hptail,
        if_neg (by omega), List.foldl_append]

/-! ## Claims C4, C10, C5 -/

/-- The example train of the spec: cars `[{free:0, [{free:0,price:100}]},
{free:5, [{free:3,price:200},{free:0,price:50}]}]`. -/
def c4exampleTrain : Train :=
  mkTrain [] [] [⟨[], 0, [⟨[], 0, 100⟩]⟩, ⟨[], 5, [⟨[], 3, 200⟩, ⟨[], 0, 50⟩]⟩]

/-- C4 (amended): `HasAvailableSeats` is true iff some tariff across all
cars has free seats; for trains all of whose free tariffs carry a
positive price, `GetMinPrice` is the minimum tariff price among tariffs
with free seats (zero when there is none); and the spec's example train
has availability, minimum price 200 and 5 total free seats.  (The
positivity proviso is forced: a zero-priced free tariff re-arms the
accumulator's zero sentinel, see the counterexample.) -/
theorem c4_availability_and_min_price :
    (∀ t : Train, t.hasAvailableSeats = true ↔
        ∃ c ∈ t.cars, ∃ tr ∈ c.tariffs, 0 < tr.freeSeats) ∧
    (∀ t : Train,
        (∀ c ∈ t.cars, ∀ tr ∈ c.tariffs, 0 < tr.freeSeats → 0 < tr.tariff) →
        t.getMinPrice = minOrZero t.freePrices) ∧
    (c4exampleTrain.hasAvailableSeats = true ∧
      c4exampleTrain.getMinPrice = 200 ∧
      c4exampleTrain.getTotalFreeSeats = 5) := by
  refine ⟨?_, ?_, by decide, by decide, by decide⟩
  · intro t
    simp [Train.hasAvailableSeats, List.any_eq_true, decide_eq_true_eq]
  · intro t hpos
    have h := carsFold_spec t.cars 0 le_rfl hpos
    rw [if_pos rfl] at h
    exact h

/-- C4 witness: the positivity hypothesis holds for the example train
and the amended minimum-price equation follows for it. -/
theorem c4_witness :
    (∀ c ∈ c4exampleTrain.cars, ∀ tr ∈ c.tariffs,
        0 < tr.freeSeats → 0 < tr.tariff) ∧
    c4exampleTrain.getMinPrice = minOrZero c4exampleTrain.freePrices :=
  ⟨by decide, c4_availability_and_min_price.2.1 c4exampleTrain (by decide)⟩

/-- A train with a zero-priced free tariff ahead of a 100-priced one. -/
def c4zeroPriceTrain : Train := mkTrain [] [] [⟨[], 1, [⟨[], 1, 0⟩, ⟨[], 1, 100⟩]⟩]

/-- C4 counterexample: on the train whose free tariffs are priced 0 and
100, `GetMinPrice` returns 100, whereas the minimum tariff price among
tariffs with free seats is 0 — so the claim as stated fails. -/
theorem c4_counterexample :
    c4zeroPriceTrain.getMinPrice = 100 ∧
    minOrZero c4zeroPriceTrain.freePrices = 0 ∧
    c4zeroPriceTrain.getMinPrice ≠ minOrZero c4zeroPriceTrain.freePrices := by
  decide

/-- C10: the two availability measures can disagree — a train whose only
car reports 0 car-level free seats but carries a tariff with 3 free
seats has `HasAvailableSeats() = true` and `GetTotalFreeSeats() = 0`. -/
theorem c10_measures_disagree :
    ∃ t : Train, (∀ c ∈ t.cars, c.freeSeats = 0) ∧
      (∃ c ∈ t.cars, ∃ tr ∈ c.tariffs, 0 < tr.freeSeats) ∧
      t.hasAvailableSeats = true ∧ t.getTotalFreeSeats = 0 :=
  ⟨mkTrain [] [] [⟨[], 0, [⟨[], 3, 200⟩]⟩], by decide, by decide, by decide,
    by decide⟩

/-- The spec's combined date-time example train. -/
def c5exampleTrain : Train := mkTrain "02.09.2025 06:03".data "02.09.2025 08:21".data []

/-- C5 (amended): on `"02.09.2025 06:03"` the extractors yield `"06:03"`
and `"02.09.2025"`; the time extractors return strings shorter than 16
characters unchanged, while the date extractor returns strings shorter
than 10 characters unchanged (a 10-to-15-character string yields its
first 10 characters instead). -/
theorem c5_time_extraction :
    (c5exampleTrain.getDepartureTime = "06:03".data ∧
      c5exampleTrain.getDate = "02.09.2025".data ∧
      c5exampleTrain.getArrivalTime = "08:21".data) ∧
    (∀ t : Train, t.departureDate.length < 16 →
        t.getDepartureTime = t.departureDate) ∧
    (∀ t : Train, t.arrivalDate.length < 16 →
        t.getArrivalTime = t.arrivalDate) ∧
    (∀ t : Train, t.departureDate.length < 10 →
        t.getDate = t.departureDate) := by
  refine ⟨by decide, ?_, ?_, ?_⟩
  · intro t h
    rw [Train.getDepartureTime, if_neg (by omega)]
  · intro t h
    rw [Train.getArrivalTime, if_neg (by omega)]
  · intro t h
    rw [Train.getDate, if_neg (by omega)]

/-- C5 witness: a 3-character date-time string is returned unchanged by
all three extractors. -/
theorem c5_witness :
    (mkTrain "abc".data "xyz".data []).departureDate.length < 16 ∧
    (mkTrain "abc".data "xyz".data []).getDepartureTime = "abc".data ∧
    (mkTrain "abc".data "xyz".data []).getDate = "abc".data :=
  ⟨by decide, c5_time_extraction.2.1 (mkTrain "abc".data "xyz".data []) (by decide),
    c5_time_extraction.2.2.2 (mkTrain "abc".data "xyz".data []) (by decide)⟩

/-- C5 counterexample: the 12-character string `"02.09.2025 0"` is
shorter than 16 characters, yet `GetDate` does not return it unchanged
(it returns the first 10 characters), refuting the claim that both
extractors return strings shorter than 16 unchanged. -/
theorem c5_counterexample :
    (mkTrain "02.09.2025 0".data [] []).departureDate.length < 16 ∧
    (mkTrain "02.09.2025 0".data [] []).getDate ≠
      (mkTrain "02.09.2025 0".data [] []).departureDate := by
  decide

/-! ## Claims C6, C9 -/

/-- C6: station resolution is a total function (it always returns a
string): empty or digit-leading tokens are returned unchanged; the
spelling variants of Tashkent all resolve to the canonical code
`2900000` after trimming and lowercasing; the numeric token `9999999`
and the unknown token `Nowhereville` are returned unchanged. -/
theorem c6_station_resolution :
    (∀ s : Str, looksLikeCode s = true → getStationCode s = s) ∧
    getStationCode [] = [] ∧
    getStationCode "Tashkent".data = "2900000".data ∧
    getStationCode "toshkent".data = "2900000".data ∧
    getStationCode "  TOSHKENT ".data = "2900000".data ∧
    getStationCode "9999999".data = "9999999".data ∧
    getStationCode "Nowhereville".data = "Nowhereville".data := by
  refine ⟨?_, by decide, by decide, by decide, by decide, by decide, by decide⟩
  intro s hs
  by_cases h : s = []
  · simp [getStationCode, h]
  · simp [getStationCode, h, hs]

/-- C6 witness: the digit-leading token `123` is returned unchanged. -/
theorem c6_witness :
    looksLikeCode "123".data = true ∧ getStationCode "123".data = "123".data :=
  ⟨by decide, c6_station_resolution.1 "123".data (by decide)⟩

/-- C9: while awaiting a date, selecting a past date (strictly before
today) only re-prompts and leaves the whole conversation state record
untouched; a non-past selection stores the date and moves the step to
origin selection, preserving the stored stations. -/
theorem c9_calendar_past_date_frame :
    (∀ (st : UserState) (selected today : Int),
        st.currentStep = stepSelectDate → selected < today →
        handleDateSelection st selected today = (st, true)) ∧
    (∀ (st : UserState) (selected today : Int),
        st.currentStep = stepSelectDate → ¬ selected < today →
        handleDateSelection st selected today =
          ({ st with searchDate := selected, currentStep := stepSelectFrom },
            false)) := by
  constructor
  · intro st selected today _ h
    simp [handleDateSelection, h]
  · intro st selected today _ h
    simp [handleDateSelection, h]

/-- C9 witness: with today = 5, selecting 3 re-prompts and keeps the
state; selecting 7 stores the date and enters origin selection. -/
theorem c9_witness :
    (({ newUserState with currentStep := stepSelectDate } : UserState).currentStep
        = stepSelectDate) ∧
    ((3 : Int) < 5) ∧
    handleDateSelection { newUserState with currentStep := stepSelectDate } 3 5 =
      ({ newUserState with currentStep := stepSelectDate }, true) ∧
    (¬ (7 : Int) < 5) ∧
    handleDateSelection { newUserState with currentStep := stepSelectDate } 7 5 =
      ({ newUserState with currentStep := stepSelectFrom, searchDate := 7 },
        false) :=
  ⟨rfl, by decide,
    c9_calendar_past_date_frame.1 _ 3 5 rfl (by decide),
    by decide,
    c9_calendar_past_date_frame.2 _ 7 5 rfl (by decide)⟩

/-! ## Claims C1, C3 -/

/-- C1: when the first POST returns 403 with a CSRF marker and the
token refresh succeeds, `SearchTrains` performs exactly one refresh and
exactly two POSTs in total (the original and one retry) — `posts 1` is
unconstrained, so this holds even when the retried request fails with
403 again — and the new token is patched into the existing cookie
string: the `XSRF-TOKEN=...` segment is replaced when present, else one
is prepended. -/
theorem c1_csrf_refresh_once :
    ∀ (posts : Nat → Option HttpResp) (refresh : Option Str)
      (h : ClientHeaders) (resp : HttpResp) (tok c : Str),
      posts 0 = some resp → resp.status = 403 → hasCsrfMarker resp.body = true →
      refresh = some tok → h.cookie = some c →
      (clientSearchTrains posts refresh h).2.2.1 = 2 ∧
      (clientSearchTrains posts refresh h).2.2.2 = 1 ∧
      (clientSearchTrains posts refresh h).2.1.xsrfToken = some tok ∧
      (clientSearchTrains posts refresh h).2.1.cookie =
        some (if containsSubstr xsrfKey c then replXsrf tok c
              else xsrfKey ++ tok ++ ';' :: c) := by
  intro posts refresh h resp tok c hp0 h403 hmark href hc
  subst href
  unfold clientSearchTrains
  rw [hp0]
  simp only [if_pos (And.intro h403 hmark)]
  cases hp1 : posts 1 <;> simp [patchCookie, hc]

/-- C1 witness: a transport whose every response is 403 with a CSRF
marker (so the retried POST fails with 403 as well) still produces
exactly two POSTs and one refresh, and the `XSRF-TOKEN=zz` segment of
the existing cookie is replaced by the fresh token. -/
theorem c1_witness :
    ((fun _ => some (⟨403, "Invalid CSRF Token".data, none⟩ : HttpResp)) 0 =
        some (⟨403, "Invalid CSRF Token".data, none⟩ : HttpResp)) ∧
    hasCsrfMarker "Invalid CSRF Token".data = true ∧
    ((clientSearchTrains (fun _ => some ⟨403, "Invalid CSRF Token".data, none⟩)
          (some "tok2".data)
          ⟨some "old".data, some "a=1; XSRF-TOKEN=zz; b=2".data⟩).2.2.1 = 2 ∧
      (clientSearchTrains (fun _ => some ⟨403, "Invalid CSRF Token".data, none⟩)
          (some "tok2".data)
          ⟨some "old".data, some "a=1; XSRF-TOKEN=zz; b=2".data⟩).2.2.2 = 1 ∧
      (clientSearchTrains (fun _ => some ⟨403, "Invalid CSRF Token".data, none⟩)
          (some "tok2".data)
          ⟨some "old".data, some "a=1; XSRF-TOKEN=zz; b=2".data⟩).2.1.xsrfToken =
        some "tok2".data ∧
      (clientSearchTrains (fun _ => some ⟨403, "Invalid CSRF Token".data, none⟩)
          (some "tok2".data)
          ⟨some "old".data, some "a=1; XSRF-TOKEN=zz; b=2".data⟩).2.1.cookie =
        some (if containsSubstr xsrfKey "a=1; XSRF-TOKEN=zz; b=2".data then
                replXsrf "tok2".data "a=1; XSRF-TOKEN=zz; b=2".data
              else xsrfKey ++ "tok2".data ++ ';' :: "a=1; XSRF-TOKEN=zz; b=2".data)) :=
  ⟨rfl, by decide,
    c1_csrf_refresh_once _ _ _ _ _ _ rfl rfl (by decide) rfl rfl⟩

/-- A 2xx response whose decoded body carries a non-null `error` field. -/
def c3errResp : HttpResp :=
  ⟨200, "body".data, some ⟨none, some ⟨"E1".data, "boom".data, []⟩⟩⟩

/-- A 2xx response whose decoded body has neither `data` nor `error`. -/
def c3emptyResp : HttpResp := ⟨200, "body".data, some ⟨none, none⟩⟩

/-- C3 counterexample: on a 2xx response the client returns the decoded
body as success even when its top-level `error` field is non-null, and
likewise when the body has neither `data` nor `error` — it never fails
with a provider error at this layer, refuting the claim. -/
theorem c3_counterexample :
    (clientSearchTrains (fun _ => some c3errResp) none ⟨none, none⟩).1 =
      SearchOutcome.success ⟨none, some ⟨"E1".data, "boom".data, []⟩⟩ ∧
    (clientSearchTrains (fun _ => some c3emptyResp) none ⟨none, none⟩).1 =
      SearchOutcome.success ⟨none, none⟩ := by
  decide

/-- C3 (amended): on a 2xx response whose body decodes, the client
returns the decoded body unchanged as success — the top-level `error`
field is not inspected at this layer, and a body with neither `data`
nor `error` is likewise returned as success rather than rejected. -/
theorem c3_two_xx_returned_verbatim :
    ∀ (posts : Nat → Option HttpResp) (refresh : Option Str)
      (h : ClientHeaders) (resp : HttpResp) (v : SearchTrainsResponse),
      posts 0 = some resp → resp.status = 200 → resp.decoded = some v →
      (clientSearchTrains posts refresh h).1 = SearchOutcome.success v := by
  intro posts refresh h resp v hp0 h200 hdec
  simp only [clientSearchTrains, hp0]
  rw [if_neg (by rw [h200]; simp)]
  simp [finishResponse, h200, hdec]

/-- C3 witness: the error-carrying 2xx response is returned as success. -/
theorem c3_witness :
    ((fun _ => some c3errResp) 0 = some c3errResp) ∧
    c3errResp.status = 200 ∧
    c3errResp.decoded = some ⟨none, some ⟨"E1".data, "boom".data, []⟩⟩ ∧
    (clientSearchTrains (fun _ => some c3errResp) none ⟨none, none⟩).1 =
      SearchOutcome.success ⟨none, some ⟨"E1".data, "boom".data, []⟩⟩ :=
  ⟨rfl, rfl, rfl,
    c3_two_xx_returned_verbatim _ none ⟨none, none⟩ c3errResp _ rfl rfl rfl⟩

/-! ## Claim C7 -/

/-- The step tags are distinct list literals. -/
lemma stepSelectTo_ne_from : stepSelectTo ≠ stepSelectFrom := by decide

/-- C7 (amended): while awaiting the destination, a message whose
whitespace-trimmed text equals the stored origin is rejected (only the
provisional destination field is written; the step stays
`select_to_station`); a message whose trimmed text is non-empty and
differs from the origin fires the search and resets the state to idle,
independently of the search outcome; and the start-search trigger
produces the awaiting-origin state with today's date from any previous
state (the handler never reads it). -/
theorem c7_destination_flow :
    (∀ (st : UserState) (text : Str) (o : Bool),
        st.currentStep = stepSelectTo → trimSpace text ≠ [] →
        trimSpace text = st.fromStation →
        handleStationSelection st text o =
          ({ st with toStation := trimSpace text }, none)) ∧
    (∀ (st : UserState) (text : Str) (o o2 : Bool),
        st.currentStep = stepSelectTo → trimSpace text ≠ [] →
        trimSpace text ≠ st.fromStation →
        handleStationSelection st text o =
          (newUserState, some ⟨st.fromStation, trimSpace text, st.searchDate⟩) ∧
        handleStationSelection st text o = handleStationSelection st text o2) ∧
    (∀ today : Int,
        handleSearchTrainsButton today =
          { newUserState with currentStep := stepSelectFrom, searchDate := today }) := by
  refine ⟨?_, ?_, fun _ => rfl⟩
  · intro st text o hstep hne heq
    have h1 : ¬ st.currentStep = stepSelectFrom := by
      rw [hstep]; exact stepSelectTo_ne_from
    simp only [handleStationSelection, if_neg h1, if_pos hstep, if_neg hne]
    rw [if_pos heq.symm]
  · intro st text o o2 hstep hne hneq
    have h1 : ¬ st.currentStep = stepSelectFrom := by
      rw [hstep]; exact stepSelectTo_ne_from
    have h2 : ¬ st.fromStation = trimSpace text := fun hcon => hneq hcon.symm
    refine ⟨?_, rfl⟩
    simp only [handleStationSelection, if_neg h1, if_pos hstep, if_neg hne]
    rw [if_neg h2]

/-- The concrete awaiting-destination state of the spec's scenario. -/
def c7state : UserState := ⟨stepSelectTo, "Toshkent".data, [], 0⟩

/-- C7 counterexample: in the awaiting-destination state with origin
`Toshkent`, the text `" Toshkent "` is non-empty and differs from the
stored origin under exact case-sensitive comparison, yet no search is
fired and the step remains `select_to_station` (the handler compares
the trimmed text, which equals the origin) — refuting the claim that
any other non-empty text triggers the search and resets to idle. -/
theorem c7_counterexample :
    " Toshkent ".data ≠ [] ∧
    " Toshkent ".data ≠ c7state.fromStation ∧
    (handleStationSelection c7state " Toshkent ".data true).2 = none ∧
    (handleStationSelection c7state " Toshkent ".data true).1.currentStep =
      stepSelectTo := by
  decide

/-- C7 witness: sending exactly `"Toshkent"` (the stored origin) is
rejected in place, and sending `"Samarqand"` fires the search and
resets the state, with the same result for either search outcome. -/
theorem c7_witness :
    (c7state.currentStep = stepSelectTo ∧
      trimSpace "Toshkent".data ≠ [] ∧
      trimSpace "Toshkent".data = c7state.fromStation ∧
      handleStationSelection c7state "Toshkent".data true =
        ({ c7state with toStation := trimSpace "Toshkent".data }, none)) ∧
    (trimSpace "Samarqand".data ≠ [] ∧
      trimSpace "Samarqand".data ≠ c7state.fromStation ∧
      handleStationSelection c7state "Samarqand".data true =
        (newUserState,
          some ⟨c7state.fromStation, trimSpace "Samarqand".data, c7state.searchDate⟩) ∧
      handleStationSelection c7state "Samarqand".data true =
        handleStationSelection c7state "Samarqand".data false) :=
  ⟨⟨rfl, by decide, by decide,
      c7_destination_flow.1 c7state "Toshkent".data true rfl (by decide) (by decide)⟩,
    ⟨by decide, by decide,
      (c7_destination_flow.2.1 c7state "Samarqand".data true false rfl (by decide)
        (by decide)).1,
      (c7_destination_flow.2.1 c7state "Samarqand".data true false rfl (by decide)
        (by decide)).2⟩⟩

/-! ## Claim C2 -/

lemma retryGo_auth {α : Type} (call : Nat → Except Str α) (cA cW : Nat → Bool)
    (k r : Nat) (w : List Nat) (err : Str)
    (hc : call k = Except.error err) (ha : isAuthErrText err = true) :
    retryGo call cA cW k r w = (RetryOutcome.exhausted err, k, w) := by
  rw [retryGo, hc]
  simp [ha]

lemma retryGo_cancelled (call : Nat → Except Str α) (cA cW : Nat → Bool)
    (k r : Nat) (w : List Nat) (err : Str)
    (hc : call k = Except.error err) (ha : isAuthErrText err = false)
    (hca : cA k = true) :
    retryGo call cA cW k r w = (RetryOutcome.exhausted err, k, w) := by
  rw [retryGo, hc]
  simp [ha, hca]

lemma retryGo_cancelInWait (call : Nat → Except Str α) (cA cW : Nat → Bool)
    (k r : Nat) (w : List Nat) (err : Str)
    (hc : call k = Except.error err) (ha : isAuthErrText err = false)
    (hca : cA k = false) (hcw : cW k = true) :
    retryGo call cA cW k (r + 1) w = (RetryOutcome.cancelled, k, w) := by
  rw [retryGo, hc]
  simp [ha, hca, hcw]

lemma retryGo_last (call : Nat → Except Str α) (cA cW : Nat → Bool)
    (k : Nat) (w : List Nat) (err : Str)
    (hc : call k = Except.error err) (ha : isAuthErrText err = false)
    (hca : cA k = false) :
    retryGo call cA cW k 0 w = (RetryOutcome.exhausted err, k, w) := by
  rw [retryGo, hc]
  simp [ha, hca]

lemma retryGo_step (call : Nat → Except Str α) (cA cW : Nat → Bool)
    (k r : Nat) (w : List Nat) (err : Str)
    (hc : call k = Except.error err) (ha : isAuthErrText err = false)
    (hca : cA k = false) (hcw : cW k = false) :
    retryGo call cA cW k (r + 1) w = retryGo call cA cW (k + 1) r (w ++ [k]) := by
  rw [retryGo, hc]
  simp [ha, hca, hcw]

/-- C2: when every attempt fails with an error that is neither
authentication-related nor a cancellation, exactly 3 attempts are made
(the loop exits at attempt 3, so no attempt 4 occurs), the backoff
waits performed are exactly 1s after attempt 1 and 2s after attempt 2
(none after attempt 3), and the result wraps the third attempt's error;
moreover an attempt failing with an authentication-related error, or a
cancellation observed after a failure or during the wait, ends the loop
at that attempt with no further attempt. -/
theorem c2_retry_policy :
    (∀ (α : Type) (call : Nat → Except Str α) (e : Nat → Str) (cA cW : Nat → Bool),
        (∀ n, call n = Except.error (e n)) →
        (∀ n, isAuthErrText (e n) = false) →
        (∀ n, cA n = false) → (∀ n, cW n = false) →
        searchTrainsWithRetry call cA cW =
          (RetryOutcome.exhausted (e 3), 3, [1, 2])) ∧
    (∀ (α : Type) (call : Nat → Except Str α) (cA cW : Nat → Bool)
        (k r : Nat) (w : List Nat) (err : Str),
        call k = Except.error err → isAuthErrText err = true →
        retryGo call cA cW k r w = (RetryOutcome.exhausted err, k, w)) ∧
    (∀ (α : Type) (call : Nat → Except Str α) (cA cW : Nat → Bool)
        (k r : Nat) (w : List Nat) (err : Str),
        call k = Except.error err → isAuthErrText err = false → cA k = true →
        retryGo call cA cW k r w = (RetryOutcome.exhausted err, k, w)) ∧
    (∀ (α : Type) (call : Nat → Except Str α) (cA cW : Nat → Bool)
        (k r : Nat) (w : List Nat) (err : Str),
        call k = Except.error err → isAuthErrText err = false → cA k = false →
        cW k = true →
        retryGo call cA cW k (r + 1) w = (RetryOutcome.cancelled, k, w)) := by
  refine ⟨?_, ?_, ?_, ?_⟩
  · intro α call e cA cW hcall hauth hca hcw
    have h0 : searchTrainsWithRetry call cA cW = retryGo call cA cW 1 2 [] := rfl
    have s1 : retryGo call cA cW 1 2 [] = retryGo call cA cW 2 1 [1] :=
      retryGo_step call cA cW 1 1 [] (e 1) (hcall 1) (hauth 1) (hca 1) (hcw 1)
    have s2 : retryGo call cA cW 2 1 [1] = retryGo call cA cW 3 0 [1, 2] :=
      retryGo_step call cA cW 2 0 [1] (e 2) (hcall 2) (hauth 2) (hca 2) (hcw 2)
    have s3 : retryGo call cA cW 3 0 [1, 2] =
        (RetryOutcome.exhausted (e 3), 3, [1, 2]) :=
      retryGo_last call cA cW 3 [1, 2] (e 3) (hcall 3) (hauth 3) (hca 3)
    exact h0.trans (s1.trans (s2.trans s3))
  · intro α call cA cW k r w err hc ha
    exact retryGo_auth call cA cW k r w err hc ha
  · intro α call cA cW k r w err hc ha hca
    exact retryGo_cancelled call cA cW k r w err hc ha hca
  · intro α call cA cW k r w err hc ha hca hcw
    exact retryGo_cancelInWait call cA cW k r w err hc ha hca hcw

/-- C2 witness: a call that always fails with the non-auth error
`"boom"` and a context that never cancels produces exactly 3 attempts,
waits of 1s and 2s, and a wrap of the third attempt's error. -/
theorem c2_witness :
    isAuthErrText "boom".data = false ∧
    searchTrainsWithRetry (fun _ => (Except.error "boom".data : Except Str Unit))
        (fun _ => false) (fun _ => false) =
      (RetryOutcome.exhausted "boom".data, 3, [1, 2]) :=
  ⟨by decide,
    c2_retry_policy.1 Unit (fun _ => Except.error "boom".data)
      (fun _ => "boom".data) (fun _ => false) (fun _ => false)
      (fun _ => rfl)
      (fun _ => show isAuthErrText "boom".data = false by decide)
      (fun _ => rfl) (fun _ => rfl)⟩

/-! ## Claim C8: lemmas about line splitting and joining -/

lemma splitOnNl_ne_nil : ∀ l : Str, splitOnNl l ≠ [] := by
  intro l
  cases l with
  | nil => simp [splitOnNl]
  | cons c cs =>
    unfold splitOnNl
    by_cases hc : c = '\n'
    · simp [hc]
    · simp only [if_neg hc]
      cases hsp : splitOnNl cs <;> simp

lemma joinNl_cons_cons (g g2 : Str) (gs : List Str) :
    joinNl (g :: g2 :: gs) = g ++ '\n' :: joinNl (g2 :: gs) := rfl

lemma joinNl_splitOnNl : ∀ l : Str, joinNl (splitOnNl l) = l := by
  intro l
  induction l with
  | nil => rfl
  | cons c cs ih =>
    unfold splitOnNl
    by_cases hc : c = '\n'
    · subst hc
      rw [if_pos rfl]
      cases hsp : splitOnNl cs with
      | nil => exact absurd hsp (splitOnNl_ne_nil cs)
      | cons g gs =>
        rw [hsp] at ih
        rw [joinNl_cons_cons, ih]
        rfl
    · rw [if_neg hc]
      cases hsp : splitOnNl cs with
      | nil => exact absurd hsp (splitOnNl_ne_nil cs)
      | cons g gs =>
        rw [hsp] at ih
        cases gs with
        | nil =>
          show c :: g = c :: cs
          rw [show joinNl [g] = g from rfl] at ih
          rw [ih]
        | cons g2 gs2 =>
          rw [joinNl_cons_cons]
          rw [joinNl_cons_cons] at ih
          rw [List.cons_append, ih]

lemma joinNl_head_ne_nil (g : Str) (gs : List Str) (hg : g ≠ []) :
    joinNl (g :: gs) ≠ [] := by
  cases gs with
  | nil => simpa using hg
  | cons g2 gs2 =>
    rw [joinNl_cons_cons]
    simp

lemma joinNl_append : ∀ (g m : List Str), g ≠ [] → m ≠ [] →
    joinNl (g ++ m) = joinNl g ++ '\n' :: joinNl m := by
  intro g
  induction g with
  | nil => intro m h; exact absurd rfl h
  | cons x g' ih =>
    intro m _ hm
    cases g' with
    | nil =>
      cases m with
      | nil => exact absurd rfl hm
      | cons y ms =>
        rw [List.singleton_append, joinNl_cons_cons]
        rfl
    | cons x2 g'' =>
      have ih2 := ih m (List.cons_ne_nil x2 g'') hm
      rw [List.cons_append] at ih2
      rw [List.cons_append, List.cons_append]
      rw [joinNl_cons_cons x x2 (g'' ++ m), joinNl_cons_cons x x2 g'', ih2]
      simp

lemma flatten_head_ne_nil (g : List Str) (gs : List (List Str)) (hg : g ≠ []) :
    (g :: gs).flatten ≠ [] := by
  intro h
  rw [List.flatten_cons] at h
  exact hg (List.append_eq_nil.mp h).1

lemma joinNl_flatten_map : ∀ gs : List (List Str), (∀ g ∈ gs, g ≠ []) →
    joinNl (gs.map joinNl) = joinNl gs.flatten := by
  intro gs
  induction gs with
  | nil => intro _; rfl
  | cons g gs' ih =>
    intro h
    cases gs' with
    | nil =>
      rw [show ([g] : List (List Str)).flatten = g from by simp]
      rfl
    | cons g2 gs'' =>
      have hg : g ≠ [] := h g (by simp)
      have hg2 : g2 ≠ [] := h g2 (by simp)
      have htail : ∀ x ∈ g2 :: gs'', x ≠ [] :=
        fun x hx => h x (List.mem_cons_of_mem g hx)
      have ihx := ih htail
      rw [List.map_cons, List.map_cons, joinNl_cons_cons, ← List.map_cons, ihx,
        show ((g :: g2 :: gs'').flatten : List Str) = g ++ (g2 :: gs'').flatten from rfl,
        joinNl_append g ((g2 :: gs'').flatten) hg (flatten_head_ne_nil g2 gs'' hg2)]

lemma splitLoop_start (maxLength : Nat) (line : Str) (rest parts : List Str) :
    splitLoop maxLength (line :: rest) parts [] =
      splitLoop maxLength rest parts line := by
  rw [splitLoop]
  simp

lemma splitLoop_spec (maxLength : Nat) :
    ∀ (rest : List Str) (g0 parts : List Str),
      (∀ l ∈ rest, l ≠ [] ∧ l.length ≤ maxLength) →
      g0 ≠ [] → (∀ l ∈ g0, l ≠ []) → (joinNl g0).length ≤ maxLength →
      ∃ gs : List (List Str),
        gs.flatten = g0 ++ rest ∧
        (∀ g ∈ gs, g ≠ [] ∧ (∀ l ∈ g, l ≠ []) ∧
          (joinNl g).length ≤ maxLength) ∧
        splitLoop maxLength rest parts (joinNl g0) = parts ++ gs.map joinNl := by
  intro rest
  induction rest with
  | nil =>
    intro g0 parts _ hg0 hg0e hlen
    refine ⟨[g0], by simp, ?_, ?_⟩
    · intro g hg
      rw [List.mem_singleton] at hg
      subst hg
      exact ⟨hg0, hg0e, hlen⟩
    · have hne : joinNl g0 ≠ [] := by
        cases g0 with
        | nil => exact absurd rfl hg0
        | cons x g0' => exact joinNl_head_ne_nil x g0' (hg0e x (by simp))
      rw [splitLoop, if_pos (List.length_pos.mpr hne)]
      simp
  | cons line rest' ih =>
    intro g0 parts hrest hg0 hg0e hlen
    have hline := hrest line (by simp)
    have hrest' : ∀ l ∈ rest', l ≠ [] ∧ l.length ≤ maxLength :=
      fun l hl => hrest l (List.mem_cons_of_mem line hl)
    have hcne : joinNl g0 ≠ [] := by
      cases g0 with
      | nil => exact absurd rfl hg0
      | cons x g0' => exact joinNl_head_ne_nil x g0' (hg0e x (by simp))
    have hcpos : 0 < (joinNl g0).length := List.length_pos.mpr hcne
    by_cases hov : maxLength < (joinNl g0).length + line.length + 1
    · have hstep : splitLoop maxLength (line :: rest') parts (joinNl g0) =
          splitLoop maxLength rest' (parts ++ [joinNl g0]) line := by
        rw [splitLoop]
        simp [hov, hcpos]
      obtain ⟨gs', hflat, hprops, hrec⟩ := ih [line] (parts ++ [joinNl g0])
        hrest' (by simp)
        (by intro l hl; rw [List.mem_singleton] at hl; subst hl; exact hline.1)
        (by simpa [joinNl] using hline.2)
      have hrec2 : splitLoop maxLength rest' (parts ++ [joinNl g0]) line =
          (parts ++ [joinNl g0]) ++ gs'.map joinNl := hrec
      refine ⟨g0 :: gs', ?_, ?_, ?_⟩
      · rw [List.flatten_cons, hflat]
        simp
      · intro g hg
        rcases List.mem_cons.mp hg with h | h
        · subst h; exact ⟨hg0, hg0e, hlen⟩
        · exact hprops g h
      · rw [hstep, hrec2]
        simp
    · have hg0line : g0 ++ [line] ≠ [] := by simp
      have hg0linee : ∀ l ∈ g0 ++ [line], l ≠ [] := by
        intro l hl
        rcases List.mem_append.mp hl with h | h
        · exact hg0e l h
        · rw [List.mem_singleton] at h; subst h; exact hline.1
      have hjoin : joinNl (g0 ++ [line]) = joinNl g0 ++ '\n' :: line := by
        rw [joinNl_append g0 [line] hg0 (by simp)]
        rfl
      have hjlen : (joinNl (g0 ++ [line])).length ≤ maxLength := by
        rw [hjoin]
        simp only [List.length_append, List.length_cons]
        omega
      have hstep : splitLoop maxLength (line :: rest') parts (joinNl g0) =
          splitLoop maxLength rest' parts (joinNl (g0 ++ [line])) := by
        rw [splitLoop, hjoin]
        simp [hov, hcpos]
      obtain ⟨gs', hflat, hprops, hrec⟩ :=
        ih (g0 ++ [line]) parts hrest' hg0line hg0linee hjlen
      refine ⟨gs', ?_, hprops, ?_⟩
      · rw [hflat]
        simp
      · rw [hstep]
        exact hrec

/-- C8 (amended): whenever every line of the text is non-empty and no
longer than the cap, the splitter produces parts of length at most the
cap, formed only at newline boundaries (the parts are the
newline-joins of a partition of the original line list into consecutive
non-empty groups), and joining the parts with a newline reproduces the
text exactly.  (Both restrictions are forced: a single over-long line
is emitted as an over-long part, and an empty line at a flush point is
silently dropped.) -/
theorem c8_split_message :
    ∀ (text : Str) (maxLength : Nat),
      (∀ l ∈ splitOnNl text, l ≠ [] ∧ l.length ≤ maxLength) →
      (∀ p ∈ splitMessage text maxLength, p.length ≤ maxLength) ∧
      (∃ gs : List (List Str), gs.flatten = splitOnNl text ∧
          (∀ g ∈ gs, g ≠ []) ∧ splitMessage text maxLength = gs.map joinNl) ∧
      joinNl (splitMessage text maxLength) = text := by
  intro text maxLength hlines
  by_cases hshort : text.length ≤ maxLength
  · rw [splitMessage, if_pos hshort]
    refine ⟨?_, ⟨[splitOnNl text], by simp, ?_, ?_⟩, ?_⟩
    · intro p hp
      rw [List.mem_singleton] at hp
      subst hp
      exact hshort
    · intro g hg
      rw [List.mem_singleton] at hg
      subst hg
      exact splitOnNl_ne_nil text
    · rw [List.map_singleton, joinNl_splitOnNl]
    · rw [show joinNl [text] = text from rfl]
  · rw [splitMessage, if_neg hshort]
    cases hsp : splitOnNl text with
    | nil => exact absurd hsp (splitOnNl_ne_nil text)
    | cons l1 ls =>
      rw [hsp] at hlines
      have h1 := hlines l1 (by simp)
      obtain ⟨gs, hflat, hprops, hrec⟩ := splitLoop_spec maxLength ls [l1] []
        (fun l hl => hlines l (List.mem_cons_of_mem l1 hl)) (by simp)
        (by intro l hl; rw [List.mem_singleton] at hl; subst hl; exact h1.1)
        (by simpa [joinNl] using h1.2)
      have hrec2 : splitLoop maxLength ls [] l1 = gs.map joinNl := by
        have h2 : splitLoop maxLength ls [] (joinNl [l1]) = [] ++ gs.map joinNl :=
          hrec
        simpa using h2
      have hparts : splitLoop maxLength (l1 :: ls) [] [] = gs.map joinNl :=
        (splitLoop_start maxLength l1 ls []).trans hrec2
      rw [hparts]
      have hflat2 : gs.flatten = l1 :: ls := by simpa using hflat
      refine ⟨?_, ⟨gs, hflat2, fun g hg => (hprops g hg).1, rfl⟩, ?_⟩
      · intro p hp
        rw [List.mem_map] at hp
        obtain ⟨g, hg, rfl⟩ := hp
        exact (hprops g hg).2.2
      · have hj := joinNl_splitOnNl text
        rw [hsp] at hj
        rw [joinNl_flatten_map gs fun g hg => (hprops g hg).1, hflat2]
        exact hj

/-- A single 4097-character line (one character over the platform cap). -/
def c8longLine : Str := List.replicate 4097 'a'

lemma splitOnNl_no_newline : ∀ l : Str, (∀ c ∈ l, c ≠ '\n') →
    splitOnNl l = [l] := by
  intro l
  induction l with
  | nil => intro _; rfl
  | cons c cs ih =>
    intro h
    unfold splitOnNl
    rw [if_neg (h c (by simp)), ih fun x hx => h x (List.mem_cons_of_mem c hx)]

/-- C8 counterexample: the 4097-character single-line text exceeds the
cap 4096, yet the splitter returns it as one part of length 4097 —
refuting the claim that every part is at most the cap long. -/
theorem c8_counterexample :
    4096 < c8longLine.length ∧
    ¬ (∀ p ∈ splitMessage c8longLine 4096, p.length ≤ 4096) := by
  have hlen : c8longLine.length = 4097 := by
    rw [c8longLine, List.length_replicate]
  have hsp : splitOnNl c8longLine = [c8longLine] := by
    refine splitOnNl_no_newline c8longLine ?_
    intro c hc
    rw [c8longLine] at hc
    have : c = 'a' := List.eq_of_mem_replicate hc
    subst this
    decide
  have hmsg : splitMessage c8longLine 4096 = [c8longLine] := by
    rw [splitMessage, if_neg (by omega), hsp, splitLoop_start, splitLoop,
      if_pos (by omega : 0 < c8longLine.length), List.nil_append]
  refine ⟨by omega, ?_⟩
  intro hall
  have := hall c8longLine (by rw [hmsg]; exact List.mem_singleton.mpr rfl)
  omega

/-- A 6001-character text of two 3000-character lines. -/
def c8okText : Str :=
  List.replicate 3000 'a' ++ '\n' :: List.replicate 3000 'a'

lemma splitOnNl_append_no_newline : ∀ l1 : Str, (∀ c ∈ l1, c ≠ '\n') →
    ∀ (l2 g : Str) (gs : List Str), splitOnNl l2 = g :: gs →
    splitOnNl (l1 ++ l2) = (l1 ++ g) :: gs := by
  intro l1
  induction l1 with
  | nil =>
    intro _ l2 g gs h
    simpa using h
  | cons c cs ih =>
    intro h l2 g gs hsp
    rw [List.cons_append]
    unfold splitOnNl
    rw [if_neg (h c (by simp)),
      ih (fun x hx => h x (List.mem_cons_of_mem c hx)) l2 g gs hsp]
    rfl

lemma c8okText_lines :
    splitOnNl c8okText = [List.replicate 3000 'a', List.replicate 3000 'a'] := by
  have hnn : ∀ c ∈ List.replicate 3000 'a', c ≠ '\n' := by
    intro c hc
    have : c = 'a' := List.eq_of_mem_replicate hc
    subst this
    decide
  have h2 : splitOnNl ('\n' :: List.replicate 3000 'a') =
      [[], List.replicate 3000 'a'] := by
    unfold splitOnNl
    rw [if_pos rfl, splitOnNl_no_newline _ hnn]
  have h3 := splitOnNl_append_no_newline (List.replicate 3000 'a') hnn
    ('\n' :: List.replicate 3000 'a') [] [List.replicate 3000 'a'] h2
  rw [List.append_nil] at h3
  rw [c8okText]
  exact h3

/-- C8 witness: the 6001-character two-line text satisfies the line
restrictions, so the splitter's parts are capped, line-aligned, and the
newline-join of the parts reproduces the text. -/
theorem c8_witness :
    (∀ l ∈ splitOnNl c8okText, l ≠ [] ∧ l.length ≤ 4096) ∧
    ((∀ p ∈ splitMessage c8okText 4096, p.length ≤ 4096) ∧
      (∃ gs : List (List Str), gs.flatten = splitOnNl c8okText ∧
          (∀ g ∈ gs, g ≠ []) ∧ splitMessage c8okText 4096 = gs.map joinNl) ∧
      joinNl (splitMessage c8okText 4096) = c8okText) := by
  have hyp : ∀ l ∈ splitOnNl c8okText, l ≠ [] ∧ l.length ≤ 4096 := by
    rw [c8okText_lines]
    intro l hl
    have hl2 : l = List.replicate 3000 'a' := by
      rcases List.mem_cons.mp hl with h | h
      · exact h
      · exact List.mem_singleton.mp h
    subst hl2
    constructor
    · intro hcon
      have hc := congrArg List.length hcon
      rw [List.length_replicate, List.length_nil] at hc
      exact absurd hc (by decide)
    · rw [List.length_replicate]
      decide
  exact ⟨hyp, c8_split_message c8okText 4096 hyp⟩

end Chiptatop
